import Mathlib

/-
  Verification of the Smart-Buy-Dashboard frontend service layer and UI state logic.
  The definitions below are shallow embeddings of the TypeScript/JavaScript source:
  frontend/src/services/api.ts (ApiService), the useVendors hook, the
  ProcurementTimeline and ProjectSchedule components, and, where the backend
  Python source is absent from the repository snapshot, models built from the
  backend README.
-/

namespace SmartBuy

/-- Parsed JSON body of an HTTP response: the value of its detail field
(none when absent) plus the remaining payload, kept as an uninterpreted string. -/
structure JsonVal where
  detail : Option String
  payload : String
deriving DecidableEq, Repr

/-- Result of one fetch: the ok flag, the numeric status, and the outcome of
response.json() (none when the body does not parse as JSON). -/
structure HttpResponse where
  ok : Bool
  status : Nat
  body : Option JsonVal
deriving DecidableEq, Repr

/-- Outcome of ApiService.request: the parsed body on success, a thrown Error
with a message for a non-ok status, or the rethrown rejection of
response.json() when an ok body does not parse. -/
inductive RequestResult where
  | success (v : JsonVal)
  | httpError (msg : String)
  | parseFailure
deriving DecidableEq, Repr

/-- Embeds the template literal used for the fallback Error message. -/
def fallbackMessage (status : Nat) : String :=
  "HTTP error! status: " ++ toString status

/-- Embeds errorData.detail where errorData is response.json() with a
catch handler returning the empty object (whose detail field is undefined). -/
def errorDetail (resp : HttpResponse) : Option String :=
  match resp.body with
  | some v => v.detail
  | none => none

/-- Embeds new Error(errorData.detail || fallback): JavaScript picks the
detail only when it is truthy, i.e. a non-empty string. -/
def httpErrorMessage (resp : HttpResponse) : String :=
  match errorDetail resp with
  | some d => if d = "" then fallbackMessage resp.status else d
  | none => fallbackMessage resp.status

/-- Embeds the body of ApiService.request acting on the single fetched
response: ok responses return the parsed body, non-ok responses throw an
Error built by httpErrorMessage, unparseable ok bodies rethrow the parse
rejection. -/
def request1 (resp : HttpResponse) : RequestResult :=
  if resp.ok then
    match resp.body with
    | some v => RequestResult.success v
    | none => RequestResult.parseFailure
  else
    RequestResult.httpError (httpErrorMessage resp)

/-- Embeds ApiService.request against a queue of responses the network would
return to successive fetches: the method performs exactly one fetch, consuming
the head of the queue and leaving the rest untouched (no retry, no backoff). -/
def request (fetches : List HttpResponse) : Option (RequestResult × List HttpResponse) :=
  match fetches with
  | [] => none
  | r :: rest => some (request1 r, rest)

/-- Embeds interface VendorSearchParams of api.ts. -/
structure VendorSearchParams where
  material : String
  location : Option String
deriving DecidableEq, Repr

/-- Embeds the URLSearchParams built in ApiService.searchVendors: material is
always appended; location is appended under `if (params.location)`, i.e. only
when present and truthy (non-empty). -/
def searchVendorsQuery (p : VendorSearchParams) : List (String × String) :=
  [("material", p.material)] ++
    (match p.location with
     | some l => if l = "" then [] else [("location", l)]
     | none => [])

/-- Embeds URLSearchParams.toString as the ampersand-joined key=value list
(percent-encoding is irrelevant to the properties proved here). -/
def queryToString (q : List (String × String)) : String :=
  String.intercalate "&" (q.map (fun kv => kv.1 ++ "=" ++ kv.2))

/-- Arguments fed to the ApiService methods, gathered in one record so that a
single path function can cover every method. -/
structure ApiArgs where
  search : VendorSearchParams
  vendorId : Int
  projectId : String
  materialId : String
  vendorIdStr : String
  materialName : Option String
deriving DecidableEq, Repr

/-- Enumerates the public methods of class ApiService in api.ts. -/
inductive ApiMethod where
  | searchVendors
  | finalizeVendor
  | updateVendor
  | getFinalizedVendors
  | healthCheck
  | predictMaterials
  | testPrediction
  | createProject
  | getAllProjects
  | getProject
  | savePrediction
  | getPredictions
  | saveVendor
  | getProjectVendors
  | assignVendorToMaterial
  | registerUser
  | login
deriving DecidableEq, Repr

/-- Embeds the URLSearchParams built in ApiService.getProjectVendors: the
material_name entry is appended under `if (materialName)`, i.e. only when
present and truthy (non-empty). -/
def getProjectVendorsQuery (materialName : Option String) : List (String × String) :=
  match materialName with
  | some m => if m = "" then [] else [("material_name", m)]
  | none => []

/-- Embeds the endpoint string each ApiService method passes to request. -/
def endpointOf (m : ApiMethod) (a : ApiArgs) : String :=
  match m with
  | ApiMethod.searchVendors => "/vendors?" ++ queryToString (searchVendorsQuery a.search)
  | ApiMethod.finalizeVendor => "/vendors/finalize/" ++ toString a.vendorId
  | ApiMethod.updateVendor => "/vendors/" ++ toString a.vendorId
  | ApiMethod.getFinalizedVendors => "/vendors/finalized"
  | ApiMethod.healthCheck => "/"
  | ApiMethod.predictMaterials => "/predict"
  | ApiMethod.testPrediction => "/test-prediction"
  | ApiMethod.createProject => "/projects"
  | ApiMethod.getAllProjects => "/projects"
  | ApiMethod.getProject => "/projects/" ++ a.projectId
  | ApiMethod.savePrediction => "/projects/" ++ a.projectId ++ "/predictions"
  | ApiMethod.getPredictions => "/projects/" ++ a.projectId ++ "/predictions"
  | ApiMethod.saveVendor => "/vendors/save"
  | ApiMethod.getProjectVendors =>
      "/projects/" ++ a.projectId ++ "/vendors?" ++
        queryToString (getProjectVendorsQuery a.materialName)
  | ApiMethod.assignVendorToMaterial =>
      "/projects/" ++ a.projectId ++ "/materials/" ++ a.materialId ++
        "/assign-vendor?vendor_id=" ++ a.vendorIdStr
  | ApiMethod.registerUser => "/auth/register"
  | ApiMethod.login => "/auth/login"

/-- Embeds the HTTP verb each ApiService method passes to fetch (fetch
defaults to GET when no method option is given). -/
def httpVerbOf : ApiMethod → String
  | ApiMethod.searchVendors => "GET"
  | ApiMethod.finalizeVendor => "POST"
  | ApiMethod.updateVendor => "PATCH"
  | ApiMethod.getFinalizedVendors => "GET"
  | ApiMethod.healthCheck => "GET"
  | ApiMethod.predictMaterials => "POST"
  | ApiMethod.testPrediction => "POST"
  | ApiMethod.createProject => "POST"
  | ApiMethod.getAllProjects => "GET"
  | ApiMethod.getProject => "GET"
  | ApiMethod.savePrediction => "POST"
  | ApiMethod.getPredictions => "GET"
  | ApiMethod.saveVendor => "POST"
  | ApiMethod.getProjectVendors => "GET"
  | ApiMethod.assignVendorToMaterial => "PATCH"
  | ApiMethod.registerUser => "POST"
  | ApiMethod.login => "POST"

/-- All seventeen ApiService methods. -/
def apiMethods : List ApiMethod :=
  [ApiMethod.searchVendors, ApiMethod.finalizeVendor, ApiMethod.updateVendor,
   ApiMethod.getFinalizedVendors, ApiMethod.healthCheck, ApiMethod.predictMaterials,
   ApiMethod.testPrediction, ApiMethod.createProject, ApiMethod.getAllProjects,
   ApiMethod.getProject, ApiMethod.savePrediction, ApiMethod.getPredictions,
   ApiMethod.saveVendor, ApiMethod.getProjectVendors, ApiMethod.assignVendorToMaterial,
   ApiMethod.registerUser, ApiMethod.login]

/-- A path lies under a root when it extends it textually. -/
def pathUnder (root p : String) : Prop := ∃ t, p = root ++ t

/-- The four endpoint roots named by the spec. -/
def underFourRoots (p : String) : Prop :=
  pathUnder "/vendors" p ∨ pathUnder "/projects" p ∨
    pathUnder "/auth" p ∨ pathUnder "/predict" p

/-- Sample arguments used by the closed counterexamples and witnesses. -/
def sampleArgs : ApiArgs :=
  { search := { material := "steel", location := some "pune" },
    vendorId := 7, projectId := "p1", materialId := "m1",
    vendorIdStr := "v1", materialName := some "cement" }

/-- Embeds interface Vendor of api.ts: the vendor record type actually
exchanged between frontend and backend. -/
structure Vendor where
  id : Int
  vendor : String
  vendor_website : Option String
  rating : Option String
  rating_count : Option String
  item_name : Option String
  item_price : Option String
  item_unit : Option String
  gst_verified : Option Bool
  trustseal_verified : Option Bool
  member_since : Option String
  location : String
  contact : Option String
  email : Option String
  url : Option String
  finalized : Bool
  payment_status : String
  delivery_status : String
  notes : Option String
deriving DecidableEq, Repr

/-- Renders an optional string field for the field inventory. -/
def optS (o : Option String) : String := o.getD ""

/-- Renders an optional boolean field for the field inventory. -/
def optB : Option Bool → String
  | some b => toString b
  | none => ""

/-- Serialises a Vendor value as its named-field list, in declaration order
of interface Vendor in api.ts. -/
def vendorFields (v : Vendor) : List (String × String) :=
  [("id", toString v.id), ("vendor", v.vendor),
   ("vendor_website", optS v.vendor_website), ("rating", optS v.rating),
   ("rating_count", optS v.rating_count), ("item_name", optS v.item_name),
   ("item_price", optS v.item_price), ("item_unit", optS v.item_unit),
   ("gst_verified", optB v.gst_verified),
   ("trustseal_verified", optB v.trustseal_verified),
   ("member_since", optS v.member_since), ("location", v.location),
   ("contact", optS v.contact), ("email", optS v.email), ("url", optS v.url),
   ("finalized", toString v.finalized), ("payment_status", v.payment_status),
   ("delivery_status", v.delivery_status), ("notes", optS v.notes)]

/-- Field names of interface Vendor in api.ts. -/
def vendorInterfaceFields : List String :=
  ["id", "vendor", "vendor_website", "rating", "rating_count", "item_name",
   "item_price", "item_unit", "gst_verified", "trustseal_verified",
   "member_since", "location", "contact", "email", "url", "finalized",
   "payment_status", "delivery_status", "notes"]

/-- Columns of the vendors table as documented in the backend README
(the backend Python source is absent from the repository snapshot). -/
def vendorsTableFields : List String :=
  ["id", "material", "vendor_name", "location", "contact", "email", "url",
   "finalized", "payment_status", "delivery_status", "notes",
   "created_at", "updated_at"]

/-- The field list asserted by the spec for vendor records: id, material,
vendor_name, location, contact, email, url, finalized flag, payment_status,
delivery_status, notes, and creation/update timestamps. -/
def claimedVendorFields : List String :=
  ["id", "material", "vendor_name", "location", "contact", "email", "url",
   "finalized", "payment_status", "delivery_status", "notes",
   "created_at", "updated_at"]

/-- Embeds the toast calls of the useVendors hook. -/
structure Toast where
  title : String
  description : String
  variant : String
deriving DecidableEq, Repr

/-- Embeds the three state cells of the useVendors hook. -/
structure VendorsState where
  vendors : List Vendor
  loading : Bool
  error : Option String
deriving DecidableEq, Repr

/-- Embeds the success-branch toast of useVendors.searchVendors, including
the truthiness test on params.location inside the template literal. -/
def searchVendorsToast (p : VendorSearchParams) (results : List Vendor) : Toast :=
  if results.length = 0 then
    { title := "No vendors found",
      description := "No vendors found for " ++ p.material ++
        (match p.location with
         | some l => if l = "" then "" else " in " ++ l
         | none => ""),
      variant := "default" }
  else
    { title := "Vendors found",
      description := "Found " ++ toString results.length ++ " vendors for " ++ p.material,
      variant := "default" }

/-- Embeds one call of useVendors.searchVendors: loading is set, error is
cleared, then the awaited API call either succeeds (vendors replaced, one
informational toast) or throws (error recorded, one destructive toast, the
vendors cell untouched); finally loading is cleared. -/
def searchVendorsStep (st : VendorsState) (p : VendorSearchParams)
    (result : Except String (List Vendor)) : VendorsState × List Toast :=
  let st1 : VendorsState := { st with loading := true, error := none }
  match result with
  | Except.ok results =>
      ({ st1 with vendors := results, loading := false },
       [searchVendorsToast p results])
  | Except.error msg =>
      ({ st1 with error := some msg, loading := false },
       [{ title := "Search failed", description := msg, variant := "destructive" }])

/-- Embeds interface VendorUpdateData of api.ts. -/
structure VendorUpdateData where
  finalized : Option Bool
  payment_status : Option String
  delivery_status : Option String
  notes : Option String
deriving DecidableEq, Repr

/-- Embeds the object spread of useVendors.updateVendor: fields present in
the update data overwrite the vendor, absent fields leave it unchanged. -/
def applyUpdate (v : Vendor) (d : VendorUpdateData) : Vendor :=
  { v with
    finalized := d.finalized.getD v.finalized,
    payment_status := d.payment_status.getD v.payment_status,
    delivery_status := d.delivery_status.getD v.delivery_status,
    notes := match d.notes with | some n => some n | none => v.notes }

/-- Embeds the setVendors functional update inside useVendors.updateVendor. -/
def updateVendorLocal (vs : List Vendor) (vendorId : Int) (d : VendorUpdateData) :
    List Vendor :=
  vs.map (fun v => if v.id = vendorId then applyUpdate v d else v)

/-- Embeds useVendors.finalizeVendor: it first awaits updateVendor with
finalized set to true (which performs its own setVendors), then applies its
own setVendors map forcing finalized to true on the matching vendor. -/
def finalizeVendorLocal (vs : List Vendor) (vendorId : Int) : List Vendor :=
  (updateVendorLocal vs vendorId
      { finalized := some true, payment_status := none,
        delivery_status := none, notes := none }).map
    (fun v => if v.id = vendorId then { v with finalized := true } else v)

/-- Modelled from the spec: one observable event of the vendor scraper, whose
Python source is absent from the repository snapshot; the backend README
documents sequential HTTP requests with delays between them. -/
inductive ScrapeEvent where
  | fetchStart (i : Nat)
  | fetchDone (i : Nat)
  | pause (d : Nat)
deriving DecidableEq, Repr

/-- Modelled from the spec: the scraper performs request i to completion,
then waits the next configured delay, then performs request i+1. -/
def scrapeTraceAux : Nat → List Nat → List ScrapeEvent
  | i, [] => [ScrapeEvent.fetchStart i, ScrapeEvent.fetchDone i]
  | i, d :: ds =>
      ScrapeEvent.fetchStart i :: ScrapeEvent.fetchDone i ::
        ScrapeEvent.pause d :: scrapeTraceAux (i + 1) ds

/-- Modelled from the spec: the event trace of a scraping run whose
consecutive-request delays are the given list. -/
def scrapeTrace (delays : List Nat) : List ScrapeEvent := scrapeTraceAux 0 delays

/-- Event a strictly precedes event b in the trace. -/
def eventBefore (tr : List ScrapeEvent) (a b : ScrapeEvent) : Prop :=
  ∃ n m, n < m ∧ tr.get? n = some a ∧ tr.get? m = some b

/-- Modelled from the spec: a row of the vendors table documented in the
backend README (the backend Python source is absent from the snapshot). -/
structure DbVendor where
  id : Nat
  material : String
  vendor_name : String
  location : String
  contact : String
  email : String
  url : String
  finalized : Bool
  payment_status : String
  delivery_status : String
  notes : String
  created_at : Nat
  updated_at : Nat
deriving DecidableEq, Repr

/-- Modelled from the spec: inserting a vendor row into the table. -/
def createVendor (db : List DbVendor) (v : DbVendor) : List DbVendor := db ++ [v]

/-- Modelled from the spec: reading back the vendor row with a given id. -/
def readVendor (db : List DbVendor) (vid : Nat) : Option DbVendor :=
  db.find? (fun w => w.id = vid)

/-- Modelled from the spec: PATCH /vendors/vendor_id updating the status
fields of the row with the given id. -/
def updateVendorDb (db : List DbVendor) (vid : Nat) (pay del : String) :
    List DbVendor :=
  db.map (fun w =>
    if w.id = vid then { w with payment_status := pay, delivery_status := del } else w)

/-- Embeds an element of the editableItems state of ProcurementTimeline,
with dates as day numbers. -/
structure EditableItem where
  id : String
  material : String
  vendor : String
  category : String
  orderBy : Int
  deliveryStart : Int
  deliveryEnd : Int
  status : String
  leadTime : Int
  notes : String
  tempOrderBy : Option String
  tempDeliveryStart : Option String
  tempDeliveryEnd : Option String
deriving DecidableEq, Repr

/-- Embeds the conditional `temp ? parseISO(temp) : old` of saveEditing:
an absent or empty (falsy) temp string keeps the old date, a truthy temp
string is parsed, yielding none when parseISO gives an invalid date. -/
def tempDate (parse : String → Option Int) (temp : Option String) (old : Int) :
    Option Int :=
  match temp with
  | some s => if s = "" then some old else parse s
  | none => some old

/-- Embeds the committed item of saveEditing: new dates installed, leadTime
recomputed as differenceInDays(newDeliveryStart, newOrderBy), temp fields
cleared. -/
def commitItem (i : EditableItem) (nOB nDS nDE : Int) : EditableItem :=
  { i with orderBy := nOB, deliveryStart := nDS, deliveryEnd := nDE,
           leadTime := nDS - nOB,
           tempOrderBy := none, tempDeliveryStart := none,
           tempDeliveryEnd := none }

/-- Embeds ProcurementTimeline.saveEditing restricted to its effect on the
editableItems state: the parse argument stands for parseISO combined with
the isValid test. -/
def saveEditing (parse : String → Option Int) (items : List EditableItem)
    (itemId : String) : List EditableItem :=
  match items.find? (fun i => i.id = itemId) with
  | none => items
  | some item =>
      match tempDate parse item.tempOrderBy item.orderBy,
            tempDate parse item.tempDeliveryStart item.deliveryStart,
            tempDate parse item.tempDeliveryEnd item.deliveryEnd with
      | some nOB, some nDS, some nDE =>
          if nDS ≤ nOB then items
          else if nDE ≤ nDS then items
          else items.map (fun i =>
            if i.id = itemId then commitItem i nOB nDS nDE else i)
      | _, _, _ => items

/-- The date-ordering invariant of a procurement item. -/
def dateInv (i : EditableItem) : Prop :=
  i.orderBy < i.deliveryStart ∧ i.deliveryStart < i.deliveryEnd

/-- Embeds a phase of ProjectSchedule, with dates as day numbers; the source
field named end is called endDate here because end is reserved in Lean. -/
structure Phase where
  start : Int
  endDate : Int
  status : String
deriving DecidableEq, Repr

/-- Embeds ProjectSchedule.getPhaseProgress: completed gives 100, pending 0,
a date before the start 0, a date past the end 100, and otherwise the
elapsed fraction times 100 clamped to the unit-percentage range. -/
def getPhaseProgress (today : Int) (phase : Phase) : ℚ :=
  let totalDays : Int := phase.endDate - phase.start
  if phase.status = "completed" then 100
  else if phase.status = "pending" then 0
  else if today < phase.start then 0
  else if phase.endDate < today then 100
  else min 100 (max 0 ((((today - phase.start : Int) : ℚ) / ((totalDays : Int) : ℚ)) * 100))

/-- Sample parse function for witnesses: the three ISO dates used by the
concrete saveEditing run map to day numbers 10, 20 and 30. -/
def parse0 (s : String) : Option Int :=
  if s = "2025-01-10" then some 10
  else if s = "2025-01-20" then some 20
  else if s = "2025-01-30" then some 30
  else none

/-- Sample procurement item for witnesses. -/
def item0 : EditableItem :=
  { id := "a", material := "Steel Beams", vendor := "V", category := "Structural",
    orderBy := 1, deliveryStart := 2, deliveryEnd := 3, status := "on-track",
    leadTime := 1, notes := "On track",
    tempOrderBy := some "2025-01-10", tempDeliveryStart := some "2025-01-20",
    tempDeliveryEnd := some "2025-01-30" }

/-- Sample vendor record for witnesses. -/
def vendor0 : Vendor :=
  { id := 7, vendor := "Acme Steel", vendor_website := some "https://acme.example",
    rating := some "4.2", rating_count := some "12", item_name := some "TMT bar",
    item_price := some "100", item_unit := some "kg", gst_verified := some true,
    trustseal_verified := some false, member_since := some "2019",
    location := "Pune", contact := some "123", email := some "a@b.c",
    url := some "https://indiamart.example", finalized := false,
    payment_status := "pending", delivery_status := "pending", notes := none }

/-- Sample database row for witnesses. -/
def dbVendor0 : DbVendor :=
  { id := 1, material := "steel", vendor_name := "Acme Steel", location := "Pune",
    contact := "123", email := "a@b.c", url := "https://indiamart.example",
    finalized := false, payment_status := "pending", delivery_status := "pending",
    notes := "", created_at := 0, updated_at := 0 }

/-- Claim C1 as stated is false: on a non-ok response whose body parses and
carries the detail field with the empty string, the thrown Error message is
the fallback text, not that detail field. -/
theorem c1_counterexample :
    errorDetail { ok := false, status := 500, body := some { detail := some "", payload := "" } }
      = some "" ∧
    request1 { ok := false, status := 500, body := some { detail := some "", payload := "" } }
      = RequestResult.httpError "HTTP error! status: 500" ∧
    ("HTTP error! status: 500" : String) ≠ "" := by
  refine ⟨rfl, by decide, by decide⟩

/-- Claim C1 (amended): ApiService.request issues exactly one fetch with no
retry, returns the parsed JSON body when the status is ok, and on a non-ok
status throws an Error whose message is the detail field of the body when
that field parses to a truthy (non-empty) string, and otherwise the text
HTTP error! status: followed by the status. -/
theorem c1_request (r : HttpResponse) (rest : List HttpResponse) :
    request (r :: rest) = some (request1 r, rest) ∧
    (∀ v, r.ok = true → r.body = some v → request1 r = RequestResult.success v) ∧
    (∀ d, r.ok = false → errorDetail r = some d → d ≠ "" →
        request1 r = RequestResult.httpError d) ∧
    (r.ok = false → (errorDetail r = none ∨ errorDetail r = some "") →
        request1 r = RequestResult.httpError (fallbackMessage r.status)) := by
  refine ⟨rfl, ?_, ?_, ?_⟩
  · intro v hok hbody
    simp [request1, hok, hbody]
  · intro d hok hdet hne
    simp [request1, hok, httpErrorMessage, hdet, hne]
  · intro hok hdet
    rcases hdet with h | h <;> simp [request1, hok, httpErrorMessage, h]

/-- Witness for c1_request at a concrete non-ok response carrying a truthy
detail field. -/
theorem c1_request_witness :
    request1 { ok := false, status := 404, body := some { detail := some "not found", payload := "" } }
      = RequestResult.httpError "not found" :=
  (c1_request
      { ok := false, status := 404, body := some { detail := some "not found", payload := "" } }
      []).2.2.1 "not found" rfl rfl (by decide)

/-- Claim C2 as stated is false: the vendor records exchanged at the API
boundary follow interface Vendor of api.ts, which lacks material,
vendor_name and the timestamps asserted by the spec. -/
theorem c2_counterexample :
    ("material" ∈ claimedVendorFields ∧ "material" ∉ vendorInterfaceFields) ∧
    ("vendor_name" ∈ claimedVendorFields ∧ "vendor_name" ∉ vendorInterfaceFields) ∧
    ("created_at" ∈ claimedVendorFields ∧ "created_at" ∉ vendorInterfaceFields) ∧
    vendorInterfaceFields ≠ claimedVendorFields := by decide

/-- Claim C2 (amended): the field list asserted by the spec is exactly the
vendors table schema of the backend README, while every vendor record
exchanged at the frontend API boundary carries the nineteen fields of
interface Vendor, a different set. -/
theorem c2_vendor_fields (v : Vendor) :
    (vendorFields v).map Prod.fst = vendorInterfaceFields ∧
    vendorsTableFields = claimedVendorFields ∧
    vendorInterfaceFields ≠ claimedVendorFields :=
  ⟨rfl, rfl, by decide⟩

/-- Claim C6 as stated is false: with location provided as the empty string
the query still omits the location parameter, because the code tests the
truthiness of params.location rather than its presence. -/
theorem c6_counterexample :
    (VendorSearchParams.mk "steel" (some "")).location = some "" ∧
    searchVendorsQuery (VendorSearchParams.mk "steel" (some "")) = [("material", "steel")] ∧
    "location" ∉ (searchVendorsQuery (VendorSearchParams.mk "steel" (some ""))).map Prod.fst := by
  decide

/-- Claim C6 (amended): the query of ApiService.searchVendors always carries
the material parameter equal to params.material, and carries the location
parameter exactly when params.location is provided and non-empty. -/
theorem c6_query (p : VendorSearchParams) :
    ("material", p.material) ∈ searchVendorsQuery p ∧
    (∀ l, p.location = some l → l ≠ "" → ("location", l) ∈ searchVendorsQuery p) ∧
    ((p.location = none ∨ p.location = some "") →
        (searchVendorsQuery p).map Prod.fst = ["material"]) ∧
    (∀ l, ("location", l) ∈ searchVendorsQuery p → p.location = some l ∧ l ≠ "") := by
  refine ⟨?_, ?_, ?_, ?_⟩
  · simp [searchVendorsQuery]
  · intro l hl hne
    simp [searchVendorsQuery, hl, hne]
  · intro h
    rcases h with h | h <;> simp [searchVendorsQuery, h]
  · intro l hl
    rcases hp : p.location with _ | loc
    · simp [searchVendorsQuery, hp] at hl
    · by_cases he : loc = ""
      · simp [searchVendorsQuery, hp, he] at hl
      · simp [searchVendorsQuery, hp, he] at hl
        exact ⟨by rw [hl], by rw [hl]; exact he⟩

/-- Witness for c6_query at concrete search parameters with a non-empty
location. -/
theorem c6_query_witness :
    ("material", "steel") ∈ searchVendorsQuery (VendorSearchParams.mk "steel" (some "pune")) ∧
    ("location", "pune") ∈ searchVendorsQuery (VendorSearchParams.mk "steel" (some "pune")) :=
  ⟨(c6_query (VendorSearchParams.mk "steel" (some "pune"))).1,
   (c6_query (VendorSearchParams.mk "steel" (some "pune"))).2.1 "pune" rfl (by decide)⟩

/-- Claim C4 as stated is false: no ApiService method ever issues a DELETE
request, so the delete leg of the asserted CRUD round-trip does not exist in
the public vendor interface. -/
theorem c4_counterexample :
    "DELETE" ∉ apiMethods.map httpVerbOf ∧
    apiMethods.map httpVerbOf =
      ["GET", "POST", "PATCH", "GET", "GET", "POST", "POST", "POST", "GET",
       "GET", "POST", "GET", "POST", "GET", "PATCH", "POST", "POST"] := by
  decide

/-- A path extends a root textually exactly when the root's characters are a
prefix of its characters. -/
theorem pathUnder_iff (root p : String) : pathUnder root p ↔ root.data <+: p.data := by
  constructor
  · rintro ⟨t, rfl⟩
    exact ⟨t.data, (String.data_append root t).symm⟩
  · rintro ⟨l, hl⟩
    refine ⟨⟨l⟩, String.ext ?_⟩
    rw [String.data_append]
    exact hl.symm

/-- Claim C3 as stated is false: ApiService.healthCheck requests the root
path and ApiService.testPrediction requests /test-prediction, neither of
which lies under /vendors, /projects, /auth or /predict. -/
theorem c3_counterexample :
    endpointOf ApiMethod.healthCheck sampleArgs = "/" ∧
    ¬ underFourRoots (endpointOf ApiMethod.healthCheck sampleArgs) ∧
    endpointOf ApiMethod.testPrediction sampleArgs = "/test-prediction" ∧
    ¬ underFourRoots (endpointOf ApiMethod.testPrediction sampleArgs) := by
  refine ⟨rfl, ?_, rfl, ?_⟩ <;>
    · simp only [underFourRoots, pathUnder_iff]
      decide

/-- Claim C3 (amended): every ApiService method other than healthCheck
(which requests the root path) and testPrediction (which requests
/test-prediction) targets a path under /vendors, /projects, /auth or
/predict. -/
theorem c3_endpoints (m : ApiMethod) (a : ApiArgs)
    (h1 : m ≠ ApiMethod.healthCheck) (h2 : m ≠ ApiMethod.testPrediction) :
    underFourRoots (endpointOf m a) := by
  cases m with
  | healthCheck => exact absurd rfl h1
  | testPrediction => exact absurd rfl h2
  | searchVendors =>
      exact Or.inl ⟨"?" ++ queryToString (searchVendorsQuery a.search), rfl⟩
  | finalizeVendor => exact Or.inl ⟨"/finalize/" ++ toString a.vendorId, rfl⟩
  | updateVendor => exact Or.inl ⟨"/" ++ toString a.vendorId, rfl⟩
  | getFinalizedVendors => exact Or.inl ⟨"/finalized", rfl⟩
  | predictMaterials => exact Or.inr (Or.inr (Or.inr ⟨"", rfl⟩))
  | createProject => exact Or.inr (Or.inl ⟨"", rfl⟩)
  | getAllProjects => exact Or.inr (Or.inl ⟨"", rfl⟩)
  | getProject => exact Or.inr (Or.inl ⟨"/" ++ a.projectId, rfl⟩)
  | savePrediction =>
      exact Or.inr (Or.inl ⟨"/" ++ a.projectId ++ "/predictions", rfl⟩)
  | getPredictions =>
      exact Or.inr (Or.inl ⟨"/" ++ a.projectId ++ "/predictions", rfl⟩)
  | saveVendor => exact Or.inl ⟨"/save", rfl⟩
  | getProjectVendors =>
      exact Or.inr (Or.inl ⟨"/" ++ a.projectId ++ "/vendors?" ++
        queryToString (getProjectVendorsQuery a.materialName), rfl⟩)
  | assignVendorToMaterial =>
      exact Or.inr (Or.inl ⟨"/" ++ a.projectId ++ "/materials/" ++ a.materialId ++
        "/assign-vendor?vendor_id=" ++ a.vendorIdStr, rfl⟩)
  | registerUser => exact Or.inr (Or.inr (Or.inl ⟨"/register", rfl⟩))
  | login => exact Or.inr (Or.inr (Or.inl ⟨"/login", rfl⟩))

/-- Witness for c3_endpoints at a concrete method and concrete arguments. -/
theorem c3_endpoints_witness :
    underFourRoots (endpointOf ApiMethod.searchVendors sampleArgs) :=
  c3_endpoints ApiMethod.searchVendors sampleArgs (by decide) (by decide)

/-- Searching a concatenation skips a first block containing no match. -/
theorem find_skip {α : Type} (p : α → Bool) (l1 l2 : List α)
    (h : ∀ x ∈ l1, p x = false) :
    List.find? p (l1 ++ l2) = List.find? p l2 := by
  induction l1 with
  | nil => rfl
  | cons a l ih =>
      rw [List.cons_append, List.find?_cons_of_neg, ih]
      · intro x hx
        exact h x (List.mem_cons_of_mem a hx)
      · simp [h a (List.mem_cons_self a l)]

/-- The status patch of the modelled vendor table never changes a row id. -/
theorem updateVendorDb_keeps_id (w : DbVendor) (vid : Nat) (pay del : String) :
    (if w.id = vid then { w with payment_status := pay, delivery_status := del }
     else w).id = w.id := by
  split <;> rfl

/-- Claim C4 (amended): the vendor interface supports create, read and
update, and on the vendor store modelled from the backend README a created
vendor reads back equal to the one created and a status update reads back
with exactly the new status; no delete operation exists anywhere in the
client, so the delete leg of the round-trip is unsupported. -/
theorem c4_crud (db : List DbVendor) (v : DbVendor) (pay del : String)
    (hfresh : ∀ w ∈ db, w.id ≠ v.id) :
    readVendor (createVendor db v) v.id = some v ∧
    readVendor (updateVendorDb (createVendor db v) v.id pay del) v.id =
      some { v with payment_status := pay, delivery_status := del } ∧
    (∀ m : ApiMethod, m ∈ apiMethods ∧ httpVerbOf m ≠ "DELETE") := by
  refine ⟨?_, ?_, ?_⟩
  · unfold readVendor createVendor
    rw [find_skip]
    · simp [List.find?]
    · intro x hx
      simp [hfresh x hx]
  · unfold readVendor updateVendorDb createVendor
    rw [List.map_append, find_skip]
    · simp [List.find?]
    · intro x hx
      rcases List.mem_map.mp hx with ⟨w, hw, rfl⟩
      simp [updateVendorDb_keeps_id, hfresh w hw]
  · intro m
    constructor
    · cases m <;> simp [apiMethods]
    · cases m <;> decide

/-- Witness for c4_crud: a vendor created in the empty store reads back. -/
theorem c4_crud_witness :
    readVendor (createVendor [] dbVendor0) dbVendor0.id = some dbVendor0 :=
  (c4_crud [] dbVendor0 "paid" "delivered" (by simp)).1

/-- Claim C5: one call of useVendors.searchVendors emits exactly one toast:
the No vendors found toast on a successful empty result, the Vendors found
toast on a successful non-empty result, and the destructive Search failed
toast when the call throws, in which case the vendors cell is untouched and
the error cell holds the error message. -/
theorem c5_searchVendors (st : VendorsState) (p : VendorSearchParams)
    (res : Except String (List Vendor)) :
    ((searchVendorsStep st p res).2.length = 1) ∧
    (∀ results, res = Except.ok results →
        (searchVendorsStep st p res).2 = [searchVendorsToast p results] ∧
        (results.length = 0 →
            (searchVendorsToast p results).title = "No vendors found" ∧
            (searchVendorsToast p results).variant = "default") ∧
        (results.length ≠ 0 →
            (searchVendorsToast p results).title = "Vendors found" ∧
            (searchVendorsToast p results).variant = "default")) ∧
    (∀ msg, res = Except.error msg →
        (searchVendorsStep st p res).2 =
          [{ title := "Search failed", description := msg, variant := "destructive" }] ∧
        (searchVendorsStep st p res).1.vendors = st.vendors ∧
        (searchVendorsStep st p res).1.error = some msg) := by
  refine ⟨?_, ?_, ?_⟩
  · cases res <;> simp [searchVendorsStep]
  · rintro results rfl
    refine ⟨rfl, ?_, ?_⟩
    · intro h
      simp [searchVendorsToast, h]
    · intro h
      simp [searchVendorsToast, h]
  · rintro msg rfl
    exact ⟨rfl, rfl, rfl⟩

/-- Witness for c5_searchVendors at a concrete failing call. -/
theorem c5_searchVendors_witness :
    (searchVendorsStep ⟨[], false, none⟩ ⟨"steel", none⟩ (Except.error "boom")).2 =
      [{ title := "Search failed", description := "boom", variant := "destructive" }] ∧
    (searchVendorsStep ⟨[], false, none⟩ ⟨"steel", none⟩ (Except.error "boom")).1.vendors = [] ∧
    (searchVendorsStep ⟨[], false, none⟩ ⟨"steel", none⟩ (Except.error "boom")).1.error = some "boom" :=
  (c5_searchVendors ⟨[], false, none⟩ ⟨"steel", none⟩ (Except.error "boom")).2.2 "boom" rfl

/-- Claim C10: the local-state maps of useVendors.updateVendor and
useVendors.finalizeVendor touch only the vendor whose id matches: every
other vendor is returned unchanged, and on the matched vendor only the
fields present in the update data change, finalizeVendor changing exactly
the finalized flag to true. -/
theorem c10_localUpdates (vs : List Vendor) (vendorId : Int) (d : VendorUpdateData)
    (n : Nat) (v : Vendor) (hv : vs.get? n = some v) :
    (∃ v1, (updateVendorLocal vs vendorId d).get? n = some v1 ∧
      (v.id ≠ vendorId → v1 = v) ∧
      (v.id = vendorId →
        v1.id = v.id ∧ v1.vendor = v.vendor ∧ v1.vendor_website = v.vendor_website ∧
        v1.rating = v.rating ∧ v1.rating_count = v.rating_count ∧
        v1.item_name = v.item_name ∧ v1.item_price = v.item_price ∧
        v1.item_unit = v.item_unit ∧ v1.gst_verified = v.gst_verified ∧
        v1.trustseal_verified = v.trustseal_verified ∧
        v1.member_since = v.member_since ∧ v1.location = v.location ∧
        v1.contact = v.contact ∧ v1.email = v.email ∧ v1.url = v.url ∧
        (d.finalized = none → v1.finalized = v.finalized) ∧
        (∀ b, d.finalized = some b → v1.finalized = b) ∧
        (d.payment_status = none → v1.payment_status = v.payment_status) ∧
        (∀ s, d.payment_status = some s → v1.payment_status = s) ∧
        (d.delivery_status = none → v1.delivery_status = v.delivery_status) ∧
        (∀ s, d.delivery_status = some s → v1.delivery_status = s) ∧
        (d.notes = none → v1.notes = v.notes) ∧
        (∀ s, d.notes = some s → v1.notes = some s))) ∧
    (∃ v2, (finalizeVendorLocal vs vendorId).get? n = some v2 ∧
      (v.id ≠ vendorId → v2 = v) ∧
      (v.id = vendorId → v2 = { v with finalized := true })) := by
  constructor
  · refine ⟨if v.id = vendorId then applyUpdate v d else v, ?_, ?_, ?_⟩
    · unfold updateVendorLocal
      rw [List.get?_map, hv]
      rfl
    · intro h
      simp [h]
    · intro h
      rw [if_pos h]
      refine ⟨rfl, rfl, rfl, rfl, rfl, rfl, rfl, rfl, rfl, rfl, rfl, rfl, rfl,
        rfl, rfl, ?_, ?_, ?_, ?_, ?_, ?_, ?_, ?_⟩
      · intro h0
        simp [applyUpdate, h0]
      · intro b hb
        simp [applyUpdate, hb]
      · intro h0
        simp [applyUpdate, h0]
      · intro s hs
        simp [applyUpdate, hs]
      · intro h0
        simp [applyUpdate, h0]
      · intro s hs
        simp [applyUpdate, hs]
      · intro h0
        simp [applyUpdate, h0]
      · intro s hs
        simp [applyUpdate, hs]
  · by_cases h : v.id = vendorId
    · refine ⟨{ v with finalized := true }, ?_, ?_, ?_⟩
      · unfold finalizeVendorLocal updateVendorLocal
        rw [List.get?_map, List.get?_map, hv]
        cases v
        simp_all [applyUpdate]
      · intro hne
        exact absurd h hne
      · intro _
        rfl
    · refine ⟨v, ?_, ?_, ?_⟩
      · unfold finalizeVendorLocal updateVendorLocal
        rw [List.get?_map, List.get?_map, hv]
        simp [h]
      · intro _
        rfl
      · intro he
        exact absurd he h

/-- Witness for c10_localUpdates: finalizing the single matching vendor. -/
theorem c10_localUpdates_witness :
    ∃ v2, (finalizeVendorLocal [vendor0] 7).get? 0 = some v2 ∧
      (vendor0.id ≠ 7 → v2 = vendor0) ∧
      (vendor0.id = 7 → v2 = { vendor0 with finalized := true }) :=
  (c10_localUpdates [vendor0] 7
      { finalized := none, payment_status := none, delivery_status := none, notes := none }
      0 vendor0 rfl).2

/-- A scraper trace always opens with the fetchStart of its first request. -/
theorem scrapeTraceAux_getZero (i : Nat) (ds : List Nat) :
    (scrapeTraceAux i ds).get? 0 = some (ScrapeEvent.fetchStart i) := by
  cases ds <;> rfl

/-- Precedence is preserved when an event is prepended to a trace. -/
theorem eventBefore_cons (x : ScrapeEvent) (tr : List ScrapeEvent)
    (a b : ScrapeEvent) (h : eventBefore tr a b) : eventBefore (x :: tr) a b := by
  rcases h with ⟨n, m, hnm, hn, hm⟩
  exact ⟨n + 1, m + 1, by omega, hn, hm⟩

/-- In a trace opening a block for request i, the completion of request i
precedes the pause, which precedes the start of request i+1. -/
theorem c7_step (i d : Nat) (ds : List Nat) :
    eventBefore (scrapeTraceAux i (d :: ds)) (ScrapeEvent.fetchDone i) (ScrapeEvent.pause d) ∧
    eventBefore (scrapeTraceAux i (d :: ds)) (ScrapeEvent.pause d) (ScrapeEvent.fetchStart (i + 1)) := by
  constructor
  · exact ⟨1, 2, by omega, rfl, rfl⟩
  · refine ⟨2, 3, by omega, rfl, ?_⟩
    exact scrapeTraceAux_getZero (i + 1) ds

/-- Every pause of a scraper trace carries one of the configured delays. -/
theorem pause_mem_scrapeTraceAux (ds : List Nat) :
    ∀ i d, ScrapeEvent.pause d ∈ scrapeTraceAux i ds → d ∈ ds := by
  induction ds with
  | nil =>
      intro i d h
      simp [scrapeTraceAux] at h
  | cons e ds ih =>
      intro i d h
      simp only [scrapeTraceAux, List.mem_cons] at h
      rcases h with h | h | h | h
      · exact absurd h (by simp)
      · exact absurd h (by simp)
      · simp only [ScrapeEvent.pause.injEq] at h
        simp [h]
      · exact List.mem_cons_of_mem e (ih (i + 1) d h)

/-- Sequencing of consecutive requests inside any suffix of the trace. -/
theorem c7_seq (ds : List Nat) :
    ∀ i k (h : k < ds.length),
      eventBefore (scrapeTraceAux i ds) (ScrapeEvent.fetchDone (i + k))
        (ScrapeEvent.pause (ds.get ⟨k, h⟩)) ∧
      eventBefore (scrapeTraceAux i ds) (ScrapeEvent.pause (ds.get ⟨k, h⟩))
        (ScrapeEvent.fetchStart (i + k + 1)) := by
  induction ds with
  | nil =>
      intro i k h
      simp at h
  | cons d ds ih =>
      intro i k h
      cases k with
      | zero =>
          simpa using c7_step i d ds
      | succ k2 =>
          have h2 : k2 < ds.length := by
            simpa using Nat.lt_of_succ_lt_succ h
          have hh := ih (i + 1) k2 h2
          have e1 : i + 1 + k2 = i + (k2 + 1) := by omega
          have e2 : (d :: ds).get ⟨k2 + 1, h⟩ = ds.get ⟨k2, h2⟩ := rfl
          rw [e1] at hh
          rw [e2]
          constructor
          · exact eventBefore_cons _ _ _ _ (eventBefore_cons _ _ _ _
              (eventBefore_cons _ _ _ _ hh.1))
          · exact eventBefore_cons _ _ _ _ (eventBefore_cons _ _ _ _
              (eventBefore_cons _ _ _ _ hh.2))

/-- Claim C7: in the scraper modelled from the backend README, requests are
strictly sequential, with request k finishing before a single configured
pause which in turn precedes the start of request k+1, and every pause
duration lies between SCRAPING_DELAY_MIN and SCRAPING_DELAY_MAX whenever the
configured delays do. -/
theorem c7_scraper (dmin dmax : Nat) (delays : List Nat)
    (hb : ∀ d ∈ delays, dmin ≤ d ∧ d ≤ dmax) :
    (∀ d, ScrapeEvent.pause d ∈ scrapeTrace delays → dmin ≤ d ∧ d ≤ dmax) ∧
    (∀ k (h : k < delays.length),
        eventBefore (scrapeTrace delays) (ScrapeEvent.fetchDone k)
          (ScrapeEvent.pause (delays.get ⟨k, h⟩)) ∧
        eventBefore (scrapeTrace delays) (ScrapeEvent.pause (delays.get ⟨k, h⟩))
          (ScrapeEvent.fetchStart (k + 1))) := by
  constructor
  · intro d hd
    exact hb d (pause_mem_scrapeTraceAux delays 0 d hd)
  · intro k h
    have := c7_seq delays 0 k h
    rwa [Nat.zero_add] at this

/-- Witness for c7_scraper with delays 1 and 2 bounded by the configured
range 1 to 3. -/
theorem c7_scraper_witness :
    eventBefore (scrapeTrace [1, 2]) (ScrapeEvent.fetchDone 0) (ScrapeEvent.pause 1) :=
  ((c7_scraper 1 3 [1, 2] (by decide)).2 0 (by decide)).1

/-- Claim C8: saveEditing preserves the ordering orderBy before deliveryStart
before deliveryEnd for every item: nothing changes when the item is missing,
when a truthy temp date fails to parse, or when the computed dates are not
strictly increasing; when all checks pass the state becomes the single map
committing the new dates on the matched item, with leadTime recomputed as
the day difference and the temp fields cleared. -/
theorem c8_saveEditing (parse : String → Option Int) (items : List EditableItem)
    (itemId : String) (hinv : ∀ i ∈ items, dateInv i) :
    (∀ i ∈ saveEditing parse items itemId, dateInv i) ∧
    (items.find? (fun i => i.id = itemId) = none →
        saveEditing parse items itemId = items) ∧
    (∀ item, items.find? (fun i => i.id = itemId) = some item →
        (tempDate parse item.tempOrderBy item.orderBy = none ∨
          tempDate parse item.tempDeliveryStart item.deliveryStart = none ∨
          tempDate parse item.tempDeliveryEnd item.deliveryEnd = none) →
        saveEditing parse items itemId = items) ∧
    (∀ item nOB nDS nDE, items.find? (fun i => i.id = itemId) = some item →
        tempDate parse item.tempOrderBy item.orderBy = some nOB →
        tempDate parse item.tempDeliveryStart item.deliveryStart = some nDS →
        tempDate parse item.tempDeliveryEnd item.deliveryEnd = some nDE →
        (nDS ≤ nOB ∨ nDE ≤ nDS) → saveEditing parse items itemId = items) ∧
    (∀ item nOB nDS nDE, items.find? (fun i => i.id = itemId) = some item →
        tempDate parse item.tempOrderBy item.orderBy = some nOB →
        tempDate parse item.tempDeliveryStart item.deliveryStart = some nDS →
        tempDate parse item.tempDeliveryEnd item.deliveryEnd = some nDE →
        nOB < nDS → nDS < nDE →
        saveEditing parse items itemId =
          items.map (fun i => if i.id = itemId then commitItem i nOB nDS nDE else i)) ∧
    (∀ i nOB nDS nDE,
        (commitItem i nOB nDS nDE).leadTime = nDS - nOB ∧
        (commitItem i nOB nDS nDE).tempOrderBy = none ∧
        (commitItem i nOB nDS nDE).tempDeliveryStart = none ∧
        (commitItem i nOB nDS nDE).tempDeliveryEnd = none ∧
        (commitItem i nOB nDS nDE).orderBy = nOB ∧
        (commitItem i nOB nDS nDE).deliveryStart = nDS ∧
        (commitItem i nOB nDS nDE).deliveryEnd = nDE) := by
  have unchanged : saveEditing parse items itemId = items →
      ∀ i ∈ saveEditing parse items itemId, dateInv i := by
    intro e
    rw [e]
    exact hinv
  refine ⟨?_, ?_, ?_, ?_, ?_, ?_⟩
  · cases hf : items.find? (fun i => i.id = itemId) with
    | none => exact unchanged (by simp [saveEditing, hf])
    | some item =>
        cases e1 : tempDate parse item.tempOrderBy item.orderBy with
        | none => exact unchanged (by simp [saveEditing, hf, e1])
        | some nOB =>
            cases e2 : tempDate parse item.tempDeliveryStart item.deliveryStart with
            | none => exact unchanged (by simp [saveEditing, hf, e1, e2])
            | some nDS =>
                cases e3 : tempDate parse item.tempDeliveryEnd item.deliveryEnd with
                | none => exact unchanged (by simp [saveEditing, hf, e1, e2, e3])
                | some nDE =>
                    by_cases hA : nDS ≤ nOB
                    · exact unchanged (by simp [saveEditing, hf, e1, e2, e3, hA])
                    · by_cases hB : nDE ≤ nDS
                      · exact unchanged (by simp [saveEditing, hf, e1, e2, e3, hA, hB])
                      · have hmap : saveEditing parse items itemId =
                            items.map (fun i =>
                              if i.id = itemId then commitItem i nOB nDS nDE else i) := by
                          simp [saveEditing, hf, e1, e2, e3, hA, hB]
                        rw [hmap]
                        intro j hj
                        rcases List.mem_map.mp hj with ⟨w, hw, rfl⟩
                        by_cases hid : w.id = itemId
                        · rw [if_pos hid]
                          exact ⟨not_le.mp hA, not_le.mp hB⟩
                        · rw [if_neg hid]
                          exact hinv w hw
  · intro hf
    simp [saveEditing, hf]
  · intro item hf hdisj
    rcases hdisj with h | h | h
    · cases e2 : tempDate parse item.tempDeliveryStart item.deliveryStart <;>
        cases e3 : tempDate parse item.tempDeliveryEnd item.deliveryEnd <;>
        simp [saveEditing, hf, h, e2, e3]
    · cases e1 : tempDate parse item.tempOrderBy item.orderBy <;>
        cases e3 : tempDate parse item.tempDeliveryEnd item.deliveryEnd <;>
        simp [saveEditing, hf, h, e1, e3]
    · cases e1 : tempDate parse item.tempOrderBy item.orderBy <;>
        cases e2 : tempDate parse item.tempDeliveryStart item.deliveryStart <;>
        simp [saveEditing, hf, h, e1, e2]
  · intro item nOB nDS nDE hf e1 e2 e3 hor
    rcases hor with h | h
    · simp [saveEditing, hf, e1, e2, e3, h]
    · by_cases h0 : nDS ≤ nOB
      · simp [saveEditing, hf, e1, e2, e3, h0]
      · simp [saveEditing, hf, e1, e2, e3, h0, h]
  · intro item nOB nDS nDE hf e1 e2 e3 h4 h5
    simp [saveEditing, hf, e1, e2, e3, not_le.mpr h4, not_le.mpr h5]
  · intro i nOB nDS nDE
    exact ⟨rfl, rfl, rfl, rfl, rfl, rfl, rfl⟩

/-- Witness for c8_saveEditing: a concrete successful edit committing day
numbers 10, 20 and 30. -/
theorem c8_saveEditing_witness :
    saveEditing parse0 [item0] "a" = [commitItem item0 10 20 30] := by
  have hinv0 : ∀ i ∈ [item0], dateInv i := by
    intro i hi
    rw [List.mem_singleton] at hi
    subst hi
    exact ⟨by decide, by decide⟩
  exact ((c8_saveEditing parse0 [item0] "a" hinv0).2.2.2.2.1 item0 10 20 30
    rfl rfl rfl rfl (by norm_num) (by norm_num)).trans rfl

/-- Claim C9: for a phase with distinct start and end dates, getPhaseProgress
stays within 0 and 100, returning 100 for a completed phase, 0 for a pending
one, 0 before the start, 100 past the end and the clamped elapsed fraction
otherwise. -/
theorem c9_phaseProgress (today : Int) (phase : Phase)
    (hne : phase.start ≠ phase.endDate) :
    0 ≤ getPhaseProgress today phase ∧ getPhaseProgress today phase ≤ 100 ∧
    (phase.status = "completed" → getPhaseProgress today phase = 100) ∧
    (phase.status ≠ "completed" → phase.status = "pending" →
        getPhaseProgress today phase = 0) ∧
    (phase.status ≠ "completed" → phase.status ≠ "pending" →
        today < phase.start → getPhaseProgress today phase = 0) ∧
    (phase.status ≠ "completed" → phase.status ≠ "pending" →
        ¬ today < phase.start → phase.endDate < today →
        getPhaseProgress today phase = 100) ∧
    (phase.status ≠ "completed" → phase.status ≠ "pending" →
        ¬ today < phase.start → ¬ phase.endDate < today →
        getPhaseProgress today phase =
          min 100 (max 0 ((((today - phase.start : Int) : ℚ) /
            ((phase.endDate - phase.start : Int) : ℚ)) * 100))) := by
  simp only [getPhaseProgress]
  refine ⟨?_, ?_, ?_, ?_, ?_, ?_, ?_⟩
  · split_ifs <;> norm_num
  · split_ifs <;> norm_num
  · intro h1
    simp [h1]
  · intro h1 h2
    simp [h1, h2]
  · intro h1 h2 h3
    simp [h1, h2, h3]
  · intro h1 h2 h3 h4
    simp [h1, h2, h3, h4]
  · intro h1 h2 h3 h4
    simp [h1, h2, h3, h4]

/-- Witness for c9_phaseProgress at a concrete in-progress phase. -/
theorem c9_phaseProgress_witness :
    0 ≤ getPhaseProgress 5 { start := 0, endDate := 10, status := "in-progress" } :=
  (c9_phaseProgress 5 { start := 0, endDate := 10, status := "in-progress" } (by decide)).1

end SmartBuy
